import Mathlib

/- Verification development for the pylogger repository (src/logger.py).
Strings are modelled as lists of characters; the stateful Python objects are
modelled by explicit state passing.  Logger.log returns the updated logger,
the lines written to standard output, the call handed to the logging sink
(severity level plus message), and the exception propagated, if any. -/

abbrev Str := List Char

/-- Coercion from a Lean string literal to the character-list model. -/
def str (s : String) : Str := s.data

/-- Decimal rendering of a natural number, as Python's print of an int. -/
def natStr (n : Nat) : Str := Nat.toDigits 10 n

/-- The character set stripped by the source's rstrip argument, from
the Python expression rstrip of the five characters space, hyphen, hyphen,
greater-than, space, newline (a set, so four distinct characters). -/
def isStripChar (c : Char) : Bool :=
  c == ' ' || c == '-' || c == '>' || c == '\n'

/-- Python str.rstrip over the character set of the separator string. -/
def rstrip (s : Str) : Str :=
  (s.reverse.dropWhile isStripChar).reverse

/-- One entry of a call-stack chain: the source line number, enclosing
function name and file path read by the traceback loop. -/
structure Frame where
  f_lineno : Nat
  co_name : Str
  co_filename : Str
deriving DecidableEq

/-- A captured Python error: its string rendering and its optional
traceback, given as the chain of frames walked from tb_frame via f_back. -/
structure PyError where
  text : Str
  traceback : Option (List Frame)
deriving DecidableEq

/-- The Python exceptions the modelled code can raise. -/
inductive PyExc where
  | keyError (key : Str)
  | attributeError (attrName : Str)
deriving DecidableEq

/-- The local timestamp read at the start of Logger.log: the date string
together with the hour and minute numbers. -/
structure PyTime where
  dateStr : Str
  hour : Nat
  minute : Nat
deriving DecidableEq

/-- One call handed to the logging sink: the severity level used for the
dispatch and the message passed to it. -/
structure SinkCall where
  level : Str
  msg : Str
deriving DecidableEq, Inhabited

/-- The Logger object state (src/logger.py, class Logger). -/
structure Logger where
  name : Str
  log_directory : Str
  printed : Bool
  traceback_log : Bool
  log_count : Nat
  created : Nat
deriving DecidableEq, Inhabited

/-- Logger construction (Logger.__init__): records the configuration and
starts the usage counter at zero.  Filesystem effects are not modelled. -/
def Logger.init (name log_directory : Str) (printed traceback_log : Bool)
    (now_utc : Nat) : Logger :=
  ⟨name, log_directory, printed, traceback_log, 0, now_utc⟩

/-- The keys of the severity dispatch table Logger.LOG_TYPES, in
insertion order. -/
def LOG_TYPES : List Str :=
  [ str "info", str "debug", str "warning", str "critical"]

/-- Result of one Logger.log call: the state of the logger afterwards
(mutations persist even when an exception propagates), the lines printed to
standard output, the sink dispatch performed (none when an exception
preempted it), and the exception propagated (none on success). -/
structure LogResult where
  logger : Logger
  stdout : List Str
  sink : Option SinkCall
  exc : Option PyExc
deriving DecidableEq

/-- The basic-info line of Logger.log: date, hour, minute, a separator
bar and the message. -/
def basic_info (now : PyTime) (msg : Str) : Str :=
  now.dateStr ++ str " " ++ natStr now.hour ++ str ":" ++ natStr now.minute
    ++ str " | " ++ msg

/-- The first line of the extra-info block, whose length is also used as
the indentation of every frame line. -/
def tracebackPreamble (etext : Str) : Str :=
  str "\nOriginal Error: " ++ etext ++ str " in: \n"

/-- One rendered frame line of the traceback loop body. -/
def frameLine (indentation : Nat) (f : Frame) : Str :=
  List.replicate indentation ' ' ++ str "- Line " ++ natStr f.f_lineno
    ++ str " at " ++ f.co_name ++ str " function of file " ++ f.co_filename
    ++ str " --> \n"

/-- The while loop of Logger.log: walk the frame chain, appending one
rendered line per frame to the accumulated string. -/
def renderFrames (indentation : Nat) (frames : List Frame) (acc : Str) : Str :=
  match frames with
  | [] => acc
  | f :: rest => renderFrames indentation rest (acc ++ frameLine indentation f)

/-- The whole extra-info block for a traceback-enabled call: preamble,
one line per frame, then rstrip of the separator characters and a single
trailing newline. -/
def renderTraceback (etext : Str) (frames : List Frame) : Str :=
  let extra := tracebackPreamble etext
  let indentation := extra.length
  rstrip (renderFrames indentation frames extra) ++ str "\n"

/-- The tail of Logger.log shared by both traceback branches: build the
output message, echo it when printed is set, dispatch through LOG_TYPES
(raising KeyError when the severity is unknown) and bump the counter. -/
def logFinish (lg : Logger) (basic extra : Str) (out1 : List Str)
    (log_type : Str) : LogResult :=
  let output_msg := basic ++ extra ++ List.replicate 20 '-'
  let out2 := out1 ++ (if lg.printed then [output_msg] else [])
  if log_type ∈ LOG_TYPES then
    ⟨{ lg with log_count := lg.log_count + 1 }, out2,
      some ⟨log_type, output_msg⟩, none⟩
  else
    ⟨lg, out2, none, some (PyExc.keyError log_type)⟩

/-- Logger.log, src/logger.py lines 127 to 168.  When traceback logging is
enabled the code reads error.__traceback__.tb_frame, which raises an
AttributeError when the error is None or carries no traceback; on that path
nothing is printed and nothing reaches the sink.  Otherwise the extra info
is rendered (printing the indentation number first), and the severity
dispatch plus counter increment happen at the end. -/
def Logger.log (lg : Logger) (now : PyTime) (msg log_type : Str)
    (error : Option PyError) : LogResult :=
  if lg.traceback_log then
    match error with
    | none => ⟨lg, [], none, some (PyExc.attributeError (str "__traceback__"))⟩
    | some e =>
      match e.traceback with
      | none => ⟨lg, [], none, some (PyExc.attributeError (str "tb_frame"))⟩
      | some frames =>
        logFinish lg (basic_info now msg) (renderTraceback e.text frames)
          [natStr (tracebackPreamble e.text).length] log_type
  else
    logFinish lg (basic_info now msg) [] [] log_type

/-- Readiness of a log call with respect to the traceback walk: it cannot
raise the AttributeError.  Analysis helper, not part of the source. -/
def logReady (lg : Logger) (error : Option PyError) : Bool :=
  !lg.traceback_log ||
    (match error with
     | some e => e.traceback.isSome
     | none => false)

/-- The LoggerSet object state: the name-to-Logger mapping, modelled as an
association list in dictionary insertion order with unique keys. -/
structure LoggerSet where
  loggers : List (Str × Logger)
deriving DecidableEq

/-- Python dict lookup on the association list. -/
def alookup (k : Str) : List (Str × Logger) → Option Logger
  | [] => none
  | (k2, v) :: rest => if k2 = k then some v else alookup k rest

/-- Python dict assignment: overwrite in place when the key exists,
append otherwise. -/
def dictInsert (k : Str) (v : Logger) : List (Str × Logger) → List (Str × Logger)
  | [] => [(k, v)]
  | (k2, v2) :: rest =>
    if k2 = k then (k2, v) :: rest else (k2, v2) :: dictInsert k v rest

/-- Python dict deletion of a key (first occurrence). -/
def dictErase (k : Str) : List (Str × Logger) → List (Str × Logger)
  | [] => []
  | (k2, v2) :: rest =>
    if k2 = k then rest else (k2, v2) :: dictErase k rest

/-- LoggerSet.__init__: one Logger per name, all sharing the directory and
the printed and traceback flags, built in the order the names were given. -/
def LoggerSet.init (names : List Str) (log_directory : Str)
    (printed traceback_log : Bool) (now_utc : Nat) : LoggerSet :=
  ⟨names.foldl
    (fun acc n =>
      dictInsert n (Logger.init n log_directory printed traceback_log now_utc) acc)
    []⟩

/-- LoggerSet.refresh: reading self.loggers of name raises KeyError when
the name is absent; otherwise the member is replaced by a freshly
constructed Logger built from the old member's recorded fields. -/
def LoggerSet.refresh (s : LoggerSet) (name : Str) (now_utc : Nat) :
    Except PyExc LoggerSet :=
  match alookup name s.loggers with
  | none => Except.error (PyExc.keyError name)
  | some old =>
    Except.ok
      ⟨dictInsert name
        (Logger.init old.name old.log_directory old.printed old.traceback_log
          now_utc)
        s.loggers⟩

/-- LoggerSet.__getattr__: dict.get of the item with a None default. -/
def LoggerSet.get (s : LoggerSet) (item : Str) : Option Logger :=
  alookup item s.loggers

/-- LoggerSet.__delitem__: del of the key, with KeyError swallowed. -/
def LoggerSet.remove (s : LoggerSet) (key : Str) : LoggerSet :=
  ⟨dictErase key s.loggers⟩

/-- Result of a propagate call: the set state afterwards (partial mutation
persists when a member's log raised), the sink deliveries performed, each
tagged with the member name that performed it, and the exception
propagated, if any. -/
structure PropResult where
  set : LoggerSet
  deliveries : List (Str × SinkCall)
  exc : Option PyExc
deriving DecidableEq

/-- The loop of LoggerSet.propagate: walk the requested names in caller
order, skip names that are not members, call log on members, stop at the
first exception. -/
def propagateGo (loggers : List (Str × Logger)) (now : PyTime)
    (args : List Str) (msg log_type : Str) (error : Option PyError)
    (acc : List (Str × SinkCall)) :
    List (Str × Logger) × List (Str × SinkCall) × Option PyExc :=
  match args with
  | [] => (loggers, acc, none)
  | name :: rest =>
    match alookup name loggers with
    | none => propagateGo loggers now rest msg log_type error acc
    | some lg =>
      let r := Logger.log lg now msg log_type error
      match r.exc with
      | some e => (dictInsert name r.logger loggers, acc, some e)
      | none =>
        propagateGo (dictInsert name r.logger loggers) now rest msg log_type
          error
          (acc ++ (match r.sink with
                   | some sc => [(name, sc)]
                   | none => []))

/-- LoggerSet.propagate over an explicit list of requested names. -/
def LoggerSet.propagate (s : LoggerSet) (now : PyTime) (args : List Str)
    (msg log_type : Str) (error : Option PyError) : PropResult :=
  let r := propagateGo s.loggers now args msg log_type error []
  ⟨⟨r.1⟩, r.2.1, r.2.2⟩

/-- LoggerSet.propagate_all: propagate over every current key, in the
mapping's insertion order. -/
def LoggerSet.propagate_all (s : LoggerSet) (now : PyTime)
    (msg log_type : Str) (error : Option PyError) : PropResult :=
  s.propagate now (s.loggers.map Prod.fst) msg log_type error

/-- The traceback block exactly as claim C1 words it: the block starts with
the quoted preamble, each frame line is indented by exactly the length of
that quoted preamble, and only the trailing separator of the last frame
line is trimmed before the single trailing newline.  Written from the
claim's words, to be compared with renderTraceback. -/
def c1ClaimBlock (etext : Str) (frames : List Frame) : Str :=
  let ind := (str "Original Error: " ++ etext ++ str " in:").length
  let lastPart : Str :=
    match frames.getLast? with
    | none => []
    | some f =>
      List.replicate ind ' ' ++ str "- Line " ++ natStr f.f_lineno
        ++ str " at " ++ f.co_name ++ str " function of file "
        ++ f.co_filename ++ str "\n"
  str "\nOriginal Error: " ++ etext ++ str " in: \n"
    ++ ((frames.dropLast).map (frameLine ind)).flatten
    ++ lastPart

/-- States of a LoggerSet reachable from construction by refresh, remove,
propagate and propagate_all (the state after a failed propagate is the
partially mutated one; a failed refresh leaves the state unchanged). -/
inductive ReachableSet : LoggerSet → Prop where
  | init (names : List Str) (dir : Str) (printed tb : Bool) (now : Nat) :
      ReachableSet (LoggerSet.init names dir printed tb now)
  | refreshStep (s s' : LoggerSet) (name : Str) (now : Nat) :
      ReachableSet s → LoggerSet.refresh s name now = Except.ok s' →
      ReachableSet s'
  | removeStep (s : LoggerSet) (name : Str) :
      ReachableSet s → ReachableSet (s.remove name)
  | propagateStep (s : LoggerSet) (now : PyTime) (args : List Str)
      (msg lt : Str) (err : Option PyError) :
      ReachableSet s → ReachableSet (s.propagate now args msg lt err).set
  | propagateAllStep (s : LoggerSet) (now : PyTime) (msg lt : Str)
      (err : Option PyError) :
      ReachableSet s → ReachableSet (s.propagate_all now msg lt err).set

/-- Every stored pair has a Logger whose name field equals its key. -/
def keysMatch (l : List (Str × Logger)) : Prop :=
  ∀ p ∈ l, (p.2).name = p.1

/- Concrete values used by the witnesses. -/

/-- A concrete timestamp. -/
def nowW : PyTime := ⟨ str "2024-01-02", 3, 4⟩

/-- A plain logger: not printed, traceback disabled. -/
def lgW : Logger := ⟨ str "a", str "logs", false, false, 0, 0⟩

/-- A printed logger with traceback disabled. -/
def lgP : Logger := ⟨ str "a", str "logs", true, false, 0, 0⟩

/-- A traceback-enabled logger. -/
def lgTB : Logger := ⟨ str "a", str "logs", false, true, 0, 0⟩

/-- A concrete error with a one-frame traceback. -/
def errW : PyError := ⟨ str "E", some [⟨1, str "f", str "g"⟩]⟩

/-- The sink call produced by lgW at nowW on the empty message. -/
def scW : SinkCall :=
  ⟨ str "info", str "2024-01-02 3:4 | --------------------"⟩

/-- A concrete two-member LoggerSet. -/
def s0 : LoggerSet :=
  LoggerSet.init [ str "a", str "b"] ( str "logs") false false 0

/-- The logger stored under key a in s0. -/
def lgA0 : Logger := Logger.init ( str "a") ( str "logs") false false 0

/-- The set s0 after refreshing member a at time 7. -/
def s1 : LoggerSet :=
  ⟨[( str "a", Logger.init ( str "a") ( str "logs") false false 7),
    ( str "b", Logger.init ( str "b") ( str "logs") false false 0)]⟩

/- Helper lemmas about the rendering functions. -/

theorem renderFrames_eq (ind : Nat) (frames : List Frame) (acc : Str) :
    renderFrames ind frames acc = acc ++ (frames.map (frameLine ind)).flatten := by
  induction frames generalizing acc with
  | nil => simp [renderFrames]
  | cons f rest ih => simp [renderFrames, ih]

theorem dropWhile_append_left (p : Char → Bool) (x y : List Char)
    (h : x.dropWhile p ≠ []) :
    (x ++ y).dropWhile p = x.dropWhile p ++ y := by
  induction x with
  | nil => simp [List.dropWhile] at h
  | cons c x2 ih =>
    by_cases hc : p c
    · simp only [List.dropWhile_cons, hc, if_true, List.cons_append] at h ⊢
      exact ih h
    · simp [List.dropWhile_cons, hc]

theorem rstrip_append (a b : Str) (h : rstrip b ≠ []) :
    rstrip (a ++ b) = a ++ rstrip b := by
  have h2 : b.reverse.dropWhile isStripChar ≠ [] := by
    intro hb
    apply h
    unfold rstrip
    rw [hb, List.reverse_nil]
  unfold rstrip
  rw [List.reverse_append, dropWhile_append_left _ _ _ h2, List.reverse_append,
    List.reverse_reverse]

theorem rstrip_ne_nil (l : Str) (c : Char) (hc : c ∈ l)
    (h : isStripChar c = false) : rstrip l ≠ [] := by
  intro hnil
  unfold rstrip at hnil
  rw [List.reverse_eq_nil_iff, List.dropWhile_eq_nil_iff] at hnil
  have h2 := hnil c (by simpa using hc)
  rw [h] at h2
  simp at h2

theorem mem_frameLine (ind : Nat) (f : Frame) : 'L' ∈ frameLine ind f := by
  have h : 'L' ∈ str "- Line " := by decide
  simp only [frameLine, List.append_assoc, List.mem_append]
  tauto

theorem rstrip_frameLine_ne_nil (ind : Nat) (f : Frame) :
    rstrip (frameLine ind f) ≠ [] :=
  rstrip_ne_nil _ 'L' (mem_frameLine ind f) (by decide)

theorem renderTraceback_concat (etext : Str) (fs : List Frame) (last : Frame) :
    renderTraceback etext (fs ++ [last]) =
      tracebackPreamble etext
        ++ ((fs.map (frameLine (tracebackPreamble etext).length)).flatten)
        ++ rstrip (frameLine (tracebackPreamble etext).length last)
        ++ str "\n" := by
  have hL : 'L' ∈ (fs.map (frameLine (tracebackPreamble etext).length)).flatten
      ++ frameLine (tracebackPreamble etext).length last :=
    List.mem_append_right _ (mem_frameLine _ _)
  have h1 : rstrip ((fs.map (frameLine (tracebackPreamble etext).length)).flatten
      ++ frameLine (tracebackPreamble etext).length last) ≠ [] :=
    rstrip_ne_nil _ 'L' hL (by decide)
  simp only [renderTraceback]
  rw [renderFrames_eq, List.map_append, List.flatten_append]
  simp only [List.map_cons, List.map_nil, List.flatten_cons, List.flatten_nil,
    List.append_nil]
  rw [rstrip_append _ _ h1, rstrip_append _ _ (rstrip_frameLine_ne_nil _ _)]
  simp [List.append_assoc]

/-- C1: with traceback logging enabled and an error whose frame chain is
nonempty, the sink message contains the traceback block: the full preamble
line, one line per frame in chain order, the block stripped on the right of
every character among space, hyphen, greater-than and newline, and a single
trailing newline; the indentation of every frame line is the length of the
full preamble string, which is three more than the length of the preamble
text quoted by the claim (the leading newline plus the trailing space and
newline are counted too).  This is the amended form of the claim; the
literal claim is refuted by C1_counterexample. -/
theorem C1_traceback_block (lg : Logger) (now : PyTime) (msg lt : Str)
    (e : PyError) (fs : List Frame) (last : Frame)
    (htb : lg.traceback_log = true) (htr : e.traceback = some (fs ++ [last]))
    (hsev : lt ∈ LOG_TYPES) :
    (lg.log now msg lt (some e)).sink =
      some ⟨lt,
        basic_info now msg
          ++ (tracebackPreamble e.text
              ++ ((fs.map (frameLine (tracebackPreamble e.text).length)).flatten)
              ++ rstrip (frameLine (tracebackPreamble e.text).length last)
              ++ str "\n")
          ++ List.replicate 20 '-'⟩
    ∧ (tracebackPreamble e.text).length
        = (str "Original Error: " ++ e.text ++ str " in:").length + 3 := by
  constructor
  · simp only [Logger.log, htb, if_true, htr]
    simp only [logFinish, if_pos hsev]
    rw [renderTraceback_concat]
  · have e1 : (str "\nOriginal Error: ").length = 17 := rfl
    have e2 : (str " in: \n").length = 6 := rfl
    have e3 : (str "Original Error: ").length = 16 := rfl
    have e4 : (str " in:").length = 4 := rfl
    simp only [tracebackPreamble, List.length_append, e1, e2, e3, e4]
    omega

/-- C1 counterexample: at the error text E and the single frame with line 1,
function f and file g-, the rendered block differs from the block the claim
describes: the code indents by 24 (not 21, the length of the quoted
preamble) and its rstrip also removes the trailing hyphen of the file
path g-. -/
theorem C1_counterexample :
    renderTraceback ( str "E") [⟨1, str "f", str "g-"⟩]
        ≠ c1ClaimBlock ( str "E") [⟨1, str "f", str "g-"⟩]
    ∧ renderTraceback ( str "E") [⟨1, str "f", str "g-"⟩]
        = str "\nOriginal Error: E in: \n                        - Line 1 at f function of file g\n" := by
  exact ⟨by decide, by decide⟩

/-- C1 witness: the amended theorem applied to a concrete traceback-enabled
logger and a one-frame error. -/
theorem C1_witness :
    (lgTB.log nowW ( str "m") ( str "info") (some errW)).sink =
      some ⟨ str "info",
        basic_info nowW ( str "m")
          ++ (tracebackPreamble errW.text
              ++ ((([] : List Frame).map (frameLine (tracebackPreamble errW.text).length)).flatten)
              ++ rstrip (frameLine (tracebackPreamble errW.text).length ⟨1, str "f", str "g"⟩)
              ++ str "\n")
          ++ List.replicate 20 '-'⟩ :=
  (C1_traceback_block lgTB nowW ( str "m") ( str "info") errW []
    ⟨1, str "f", str "g"⟩ rfl rfl (by decide)).1

/-- C2: whenever Logger.log hands a message to the sink, that message is
the basic info (date, space, hour, colon, minute, the separator bar and the
message, empty message included) followed by the extra info (the rendered
traceback block when traceback logging is enabled, nothing otherwise)
followed by twenty hyphens, and it is dispatched at the requested
severity. -/
theorem C2_output_message (lg : Logger) (now : PyTime) (msg lt : Str)
    (err : Option PyError) (hsev : lt ∈ LOG_TYPES) :
    (lg.traceback_log = false →
      (lg.log now msg lt err).sink =
        some ⟨lt, now.dateStr ++ str " " ++ natStr now.hour ++ str ":"
          ++ natStr now.minute ++ str " | " ++ msg ++ List.replicate 20 '-'⟩)
    ∧ (∀ e frames, err = some e → e.traceback = some frames →
        lg.traceback_log = true →
        (lg.log now msg lt err).sink =
          some ⟨lt, now.dateStr ++ str " " ++ natStr now.hour ++ str ":"
            ++ natStr now.minute ++ str " | " ++ msg
            ++ renderTraceback e.text frames ++ List.replicate 20 '-'⟩) := by
  constructor
  · intro htb
    simp [Logger.log, htb, logFinish, hsev, basic_info, List.append_assoc]
  · intro e frames he htr htb
    subst he
    simp [Logger.log, htb, htr, logFinish, hsev, basic_info, List.append_assoc]

/-- C2 witness: a concrete non-traceback logger with the empty message
still yields the record with the empty message field and the separators. -/
theorem C2_witness :
    (lgW.log nowW [] ( str "info") none).sink =
      some ⟨ str "info", nowW.dateStr ++ str " " ++ natStr nowW.hour
        ++ str ":" ++ natStr nowW.minute ++ str " | " ++ ([] : Str)
        ++ List.replicate 20 '-'⟩ :=
  (C2_output_message lgW nowW [] ( str "info") none (by decide)).1 rfl

/-- C3 counterexample: with traceback logging enabled and a null error, a
call with the unrecognized severity boom fails with the AttributeError of
the traceback walk, not with the key-lookup failure the claim promises for
every unrecognized severity. -/
theorem C3_counterexample :
    ( str "boom") ∉ LOG_TYPES
    ∧ (lgTB.log nowW ( str "m") ( str "boom") none).exc
        = some (PyExc.attributeError ( str "__traceback__"))
    ∧ (lgTB.log nowW ( str "m") ( str "boom") none).exc
        ≠ some (PyExc.keyError ( str "boom")) := by
  exact ⟨by decide, by decide, by decide⟩

/-- C3 (amended): for every severity outside the dispatch table the call
hands nothing to the sink and fails; the failure is the key-lookup failure
on the dispatch table whenever the traceback walk cannot itself fail first
(traceback disabled, or an error with a traceback supplied); a
traceback-enabled call with a null or traceback-less error fails earlier
with an attribute error, still handing nothing to the sink. -/
theorem C3_unknown_severity (lg : Logger) (now : PyTime) (msg lt : Str)
    (err : Option PyError) (h : lt ∉ LOG_TYPES) :
    (lg.log now msg lt err).sink = none
    ∧ (lg.log now msg lt err).exc.isSome = true
    ∧ (logReady lg err = true →
        (lg.log now msg lt err).exc = some (PyExc.keyError lt)) := by
  by_cases htb : lg.traceback_log
  · cases err with
    | none => simp [Logger.log, htb, logReady]
    | some e =>
      cases htr : e.traceback with
      | none => simp [Logger.log, htb, htr, logReady]
      | some frames => simp [Logger.log, htb, htr, logReady, logFinish, h]
  · simp [Logger.log, htb, logReady, logFinish, h]

/-- C3 witness: the amended theorem at a concrete non-traceback logger and
the unrecognized severity boom. -/
theorem C3_witness :
    (lgW.log nowW ( str "m") ( str "boom") none).sink = none
    ∧ (lgW.log nowW ( str "m") ( str "boom") none).exc
        = some (PyExc.keyError ( str "boom")) :=
  ⟨(C3_unknown_severity lgW nowW ( str "m") ( str "boom") none (by decide)).1,
   (C3_unknown_severity lgW nowW ( str "m") ( str "boom") none (by decide)).2.2
     (by decide)⟩

/-- C7: with traceback logging disabled, Logger.log is entirely independent
of the supplied error (same logger state, same stdout, same sink call, same
exception for any two error values, a null one included), and whatever it
hands to the sink is the basic info plus the twenty-hyphen separator, with
no stack-frame text. -/
theorem C7_error_independence (lg : Logger) (now : PyTime) (msg lt : Str)
    (h : lg.traceback_log = false) (e1 e2 : Option PyError) :
    lg.log now msg lt e1 = lg.log now msg lt e2
    ∧ ((lg.log now msg lt e1).sink = none
        ∨ (lg.log now msg lt e1).sink =
            some ⟨lt, basic_info now msg ++ List.replicate 20 '-'⟩) := by
  constructor
  · simp [Logger.log, h]
  · by_cases hsev : lt ∈ LOG_TYPES
    · right
      simp [Logger.log, h, logFinish, hsev]
    · left
      simp [Logger.log, h, logFinish, hsev]

/-- C7 witness: a concrete printed logger with traceback disabled produces
identical results for a supplied error and a null error. -/
theorem C7_witness :
    lgP.log nowW ( str "m") ( str "info") (some errW)
      = lgP.log nowW ( str "m") ( str "info") none :=
  (C7_error_independence lgP nowW ( str "m") ( str "info") rfl
    (some errW) none).1

/-- C10: when Logger.log propagates an exception the usage counter is left
unchanged and nothing was handed to the sink; when it returns normally the
counter has grown by exactly one and the sink dispatch happened. -/
theorem C10_log_count (lg : Logger) (now : PyTime) (msg lt : Str)
    (err : Option PyError) :
    ((lg.log now msg lt err).exc.isSome = true →
      (lg.log now msg lt err).logger.log_count = lg.log_count
        ∧ (lg.log now msg lt err).sink = none)
    ∧ ((lg.log now msg lt err).exc = none →
      (lg.log now msg lt err).logger.log_count = lg.log_count + 1
        ∧ (lg.log now msg lt err).sink.isSome = true) := by
  by_cases htb : lg.traceback_log
  · cases err with
    | none => simp [Logger.log, htb]
    | some e =>
      cases htr : e.traceback with
      | none => simp [Logger.log, htb, htr]
      | some frames =>
        by_cases hsev : lt ∈ LOG_TYPES <;>
          simp [Logger.log, htb, htr, logFinish, hsev]
  · by_cases hsev : lt ∈ LOG_TYPES <;> simp [Logger.log, htb, logFinish, hsev]

/-- C10 witness: the failing call (traceback enabled, null error) leaves
the counter unchanged and hands nothing to the sink. -/
theorem C10_witness :
    (lgTB.log nowW ( str "m") ( str "info") none).logger.log_count
        = lgTB.log_count
    ∧ (lgTB.log nowW ( str "m") ( str "info") none).sink = none :=
  (C10_log_count lgTB nowW ( str "m") ( str "info") none).1 (by decide)

/- Association-list lemmas for the dictionary model. -/

theorem alookup_dictInsert (k n : Str) (v : Logger) (l : List (Str × Logger)) :
    alookup n (dictInsert k v l) = if k = n then some v else alookup n l := by
  induction l with
  | nil => simp [dictInsert, alookup]
  | cons p rest ih =>
    obtain ⟨k2, v2⟩ := p
    by_cases h : k2 = k
    · subst h
      by_cases h2 : k2 = n <;> simp [dictInsert, alookup, h2]
    · by_cases h2 : k2 = n
      · subst h2
        have hkn : ¬ k = k2 := fun hh => h hh.symm
        simp [dictInsert, alookup, h, hkn]
      · simp [dictInsert, alookup, h, h2, ih]

theorem alookup_mem (k : Str) (v : Logger) (l : List (Str × Logger))
    (h : alookup k l = some v) : (k, v) ∈ l := by
  induction l with
  | nil => simp [alookup] at h
  | cons p rest ih =>
    obtain ⟨k2, v2⟩ := p
    by_cases h2 : k2 = k
    · subst h2
      simp [alookup] at h
      subst h
      exact List.mem_cons_self _ _
    · simp [alookup, h2] at h
      exact List.mem_cons_of_mem _ (ih h)

theorem alookup_eq_none (k : Str) (l : List (Str × Logger)) :
    alookup k l = none ↔ k ∉ l.map Prod.fst := by
  induction l with
  | nil => simp [alookup]
  | cons p rest ih =>
    obtain ⟨k2, v2⟩ := p
    by_cases h2 : k2 = k
    · subst h2
      simp [alookup]
    · have h3 : ¬ k = k2 := fun hh => h2 hh.symm
      simp [alookup, h2, h3, ih]

theorem mapFst_dictInsert (k : Str) (v : Logger) (l : List (Str × Logger))
    (h : alookup k l ≠ none) :
    (dictInsert k v l).map Prod.fst = l.map Prod.fst := by
  induction l with
  | nil => simp [alookup] at h
  | cons p rest ih =>
    obtain ⟨k2, v2⟩ := p
    by_cases h2 : k2 = k
    · subst h2
      simp [dictInsert]
    · have h4 : alookup k rest ≠ none := by
        intro hn
        apply h
        simp [alookup, h2, hn]
      simp [dictInsert, h2, ih h4]

theorem mem_dictInsert (k : Str) (v : Logger) (l : List (Str × Logger))
    (p : Str × Logger) (h : p ∈ dictInsert k v l) : p = (k, v) ∨ p ∈ l := by
  induction l with
  | nil => simpa [dictInsert] using h
  | cons q rest ih =>
    obtain ⟨k2, v2⟩ := q
    by_cases h2 : k2 = k
    · subst h2
      have h4 : dictInsert k2 v ((k2, v2) :: rest) = (k2, v) :: rest := by
        simp [dictInsert]
      rw [h4] at h
      rcases List.mem_cons.mp h with h3 | h3
      · exact Or.inl h3
      · exact Or.inr (List.mem_cons_of_mem _ h3)
    · simp only [dictInsert, if_neg h2, List.mem_cons] at h
      rcases h with h | h
      · right; simp [h]
      · rcases ih h with h3 | h3
        · left; exact h3
        · right; exact List.mem_cons_of_mem _ h3

theorem mem_dictErase (k : Str) (l : List (Str × Logger)) (p : Str × Logger)
    (h : p ∈ dictErase k l) : p ∈ l := by
  induction l with
  | nil => simp [dictErase] at h
  | cons q rest ih =>
    obtain ⟨k2, v2⟩ := q
    by_cases h2 : k2 = k
    · subst h2
      simp only [dictErase, if_pos rfl] at h
      exact List.mem_cons_of_mem _ h
    · simp only [dictErase, if_neg h2, List.mem_cons] at h
      rcases h with h | h
      · simp [h]
      · exact List.mem_cons_of_mem _ (ih h)

theorem alookup_dictErase_ne (k n : Str) (l : List (Str × Logger))
    (h : ¬ k = n) : alookup n (dictErase k l) = alookup n l := by
  induction l with
  | nil => simp [dictErase]
  | cons p rest ih =>
    obtain ⟨k2, v2⟩ := p
    by_cases h2 : k2 = k
    · subst h2
      have h3 : ¬ k2 = n := h
      simp [dictErase, alookup, h3]
    · simp [dictErase, alookup, h2, ih]

theorem alookup_dictErase_self (k : Str) (l : List (Str × Logger))
    (hnd : (l.map Prod.fst).Nodup) : alookup k (dictErase k l) = none := by
  induction l with
  | nil => simp [dictErase, alookup]
  | cons p rest ih =>
    obtain ⟨k2, v2⟩ := p
    simp only [List.map_cons, List.nodup_cons] at hnd
    by_cases h2 : k2 = k
    · subst h2
      simp only [dictErase, if_pos rfl]
      exact (alookup_eq_none k2 rest).mpr hnd.1
    · simp [dictErase, alookup, h2, ih hnd.2]

theorem dictErase_of_none (k : Str) (l : List (Str × Logger))
    (h : alookup k l = none) : dictErase k l = l := by
  induction l with
  | nil => simp [dictErase]
  | cons p rest ih =>
    obtain ⟨k2, v2⟩ := p
    by_cases h2 : k2 = k
    · subst h2
      simp [alookup] at h
    · simp [alookup, h2] at h
      simp [dictErase, h2, ih h]

/-- C8: LoggerSet member access returns the Logger stored under the name
when the name is a current member of the mapping, and returns the null-like
absence, rather than failing, when it is not. -/
theorem C8_get (s : LoggerSet) (name : Str) :
    (name ∈ s.loggers.map Prod.fst →
      ∃ lg, s.get name = some lg ∧ (name, lg) ∈ s.loggers)
    ∧ (name ∉ s.loggers.map Prod.fst → s.get name = none) := by
  constructor
  · intro h
    cases hl : alookup name s.loggers with
    | none => exact absurd h (by simpa using (alookup_eq_none _ _).mp hl)
    | some lg => exact ⟨lg, hl, alookup_mem _ _ _ hl⟩
  · intro h
    exact (alookup_eq_none _ _).mpr h

/-- C8 witness: looking up an absent name in a concrete set returns the
absence value. -/
theorem C8_witness : s0.get ( str "z") = none :=
  (C8_get s0 ( str "z")).2 (by decide)

/-- C5: refresh of an absent name fails with the key-lookup failure for
that name; refresh of a member succeeds and replaces the member with a
freshly constructed Logger carrying the old member's recorded name,
directory, printed flag and traceback flag, with its usage counter reset to
zero, leaving every other member unchanged. -/
theorem C5_refresh (s : LoggerSet) (name : Str) (now_utc : Nat) :
    (s.get name = none →
      s.refresh name now_utc = Except.error (PyExc.keyError name))
    ∧ (∀ old, s.get name = some old →
        (∃ s2, s.refresh name now_utc = Except.ok s2)
        ∧ ∀ s2, s.refresh name now_utc = Except.ok s2 →
            s2.get name = some (Logger.init old.name old.log_directory
              old.printed old.traceback_log now_utc)
            ∧ (Logger.init old.name old.log_directory old.printed
                old.traceback_log now_utc).log_count = 0
            ∧ ∀ k, ¬ k = name → s2.get k = s.get k) := by
  constructor
  · intro h
    simp only [LoggerSet.get] at h
    simp [LoggerSet.refresh, h]
  · intro old h
    simp only [LoggerSet.get] at h
    constructor
    · exact ⟨⟨dictInsert name (Logger.init old.name old.log_directory
        old.printed old.traceback_log now_utc) s.loggers⟩,
        by simp [LoggerSet.refresh, h]⟩
    · intro s2 h2
      simp only [LoggerSet.refresh, h] at h2
      injection h2 with h3
      subst h3
      refine ⟨?_, rfl, ?_⟩
      · simp [LoggerSet.get, alookup_dictInsert]
      · intro k hk
        have hk2 : ¬ name = k := fun hh => hk hh.symm
        simp [LoggerSet.get, alookup_dictInsert, hk2]

/-- C5 witness: refreshing a removed or unknown name fails with the
key-lookup error, and refreshing the member a of a concrete set installs a
fresh logger with the recorded fields and a zero counter. -/
theorem C5_witness :
    s0.refresh ( str "z") 7 = Except.error (PyExc.keyError ( str "z"))
    ∧ s1.get ( str "a") = some (Logger.init lgA0.name lgA0.log_directory
        lgA0.printed lgA0.traceback_log 7) :=
  ⟨(C5_refresh s0 ( str "z") 7).1 (by decide),
   (((C5_refresh s0 ( str "a") 7).2 lgA0 (by decide)).2 s1 rfl).1⟩

theorem propagateGo_deliveries (now : PyTime) (msg lt : Str)
    (err : Option PyError) :
    ∀ (args : List Str) (loggers : List (Str × Logger))
      (acc : List (Str × SinkCall)) (p : Str × SinkCall),
      p ∈ (propagateGo loggers now args msg lt err acc).2.1 →
      p ∈ acc ∨ p.1 ∈ loggers.map Prod.fst := by
  intro args
  induction args with
  | nil =>
    intro loggers acc p h
    simp only [propagateGo] at h
    exact Or.inl h
  | cons name rest ih =>
    intro loggers acc p h
    simp only [propagateGo] at h
    cases hl : alookup name loggers with
    | none =>
      simp only [hl] at h
      exact ih loggers acc p h
    | some lg =>
      simp only [hl] at h
      have hname : name ∈ loggers.map Prod.fst := by
        by_contra hc
        rw [(alookup_eq_none name loggers).mpr hc] at hl
        cases hl
      cases hexc : (Logger.log lg now msg lt err).exc with
      | some e =>
        simp only [hexc] at h
        exact Or.inl h
      | none =>
        simp only [hexc] at h
        rcases ih _ _ p h with h2 | h2
        · rcases List.mem_append.mp h2 with h3 | h3
          · exact Or.inl h3
          · right
            cases hsink : (Logger.log lg now msg lt err).sink with
            | none =>
              rw [hsink] at h3
              cases h3
            | some sc =>
              rw [hsink] at h3
              have h5 : p = (name, sc) := by simpa using h3
              rw [h5]
              exact hname
        · right
          rwa [mapFst_dictInsert name _ loggers (by simp [hl])] at h2

/-- C9: removing a name leaves it absent from the mapping, leaves every
other member untouched, is a no-op when the name was not a member, and a
subsequent propagate over all members delivers nothing tagged with the
removed name. -/
theorem C9_remove (s : LoggerSet) (name : Str) (now : PyTime) (msg lt : Str)
    (err : Option PyError) (hnd : (s.loggers.map Prod.fst).Nodup) :
    (s.remove name).get name = none
    ∧ (∀ k, ¬ k = name → (s.remove name).get k = s.get k)
    ∧ (s.get name = none → s.remove name = s)
    ∧ (∀ p, p ∈ ((s.remove name).propagate_all now msg lt err).deliveries →
        ¬ p.1 = name) := by
  obtain ⟨l⟩ := s
  refine ⟨?_, ?_, ?_, ?_⟩
  · exact alookup_dictErase_self name l hnd
  · intro k hk
    exact alookup_dictErase_ne name k l (fun hh => hk hh.symm)
  · intro h
    simp only [LoggerSet.get] at h
    simp [LoggerSet.remove, dictErase_of_none name l h]
  · intro p hp
    simp only [LoggerSet.propagate_all, LoggerSet.propagate,
      LoggerSet.remove] at hp
    rcases propagateGo_deliveries now msg lt err
        ((dictErase name l).map Prod.fst) (dictErase name l) [] p hp
      with h2 | h2
    · cases h2
    · intro he
      rw [he] at h2
      exact ((alookup_eq_none name (dictErase name l)).mp
        (alookup_dictErase_self name l hnd)) h2

/-- C9 witness: in a concrete two-member set, removing b makes b absent,
and removing an unknown name leaves the set unchanged. -/
theorem C9_witness :
    (s0.remove ( str "b")).get ( str "b") = none
    ∧ s0.remove ( str "z") = s0 :=
  ⟨(C9_remove s0 ( str "b") nowW ( str "m") ( str "info") none (by decide)).1,
   (C9_remove s0 ( str "z") nowW ( str "m") ( str "info") none
     (by decide)).2.2.1 (by decide)⟩

theorem log_logger_fields (lg : Logger) (now : PyTime) (msg lt : Str)
    (err : Option PyError) :
    ((lg.log now msg lt err).logger).name = lg.name
    ∧ ((lg.log now msg lt err).logger).traceback_log = lg.traceback_log := by
  by_cases htb : lg.traceback_log
  · cases err with
    | none => simp [Logger.log, htb]
    | some e =>
      cases htr : e.traceback with
      | none => simp [Logger.log, htb, htr]
      | some frames =>
        by_cases hsev : lt ∈ LOG_TYPES <;>
          simp [Logger.log, htb, htr, logFinish, hsev]
  · by_cases hsev : lt ∈ LOG_TYPES <;> simp [Logger.log, htb, logFinish, hsev]

theorem log_ok (lg : Logger) (now : PyTime) (msg lt : Str)
    (err : Option PyError) (hsev : lt ∈ LOG_TYPES)
    (hr : logReady lg err = true) :
    (lg.log now msg lt err).exc = none
    ∧ (lg.log now msg lt err).sink.isSome = true := by
  by_cases htb : lg.traceback_log
  · cases err with
    | none => simp [logReady, htb] at hr
    | some e =>
      cases htr : e.traceback with
      | none => simp [logReady, htb, htr] at hr
      | some frames => simp [Logger.log, htb, htr, logFinish, hsev]
  · simp [Logger.log, htb, logFinish, hsev]

theorem propagateGo_ok (now : PyTime) (msg lt : Str) (err : Option PyError)
    (hsev : lt ∈ LOG_TYPES) :
    ∀ (args : List Str) (loggers : List (Str × Logger))
      (acc : List (Str × SinkCall)),
      (∀ p ∈ loggers, logReady p.2 err = true) →
      (propagateGo loggers now args msg lt err acc).2.2 = none
      ∧ ((propagateGo loggers now args msg lt err acc).2.1).map Prod.fst
          = acc.map Prod.fst
            ++ args.filter (fun n => (alookup n loggers).isSome) := by
  intro args
  induction args with
  | nil =>
    intro loggers acc hready
    simp [propagateGo]
  | cons name rest ih =>
    intro loggers acc hready
    simp only [propagateGo]
    cases hl : alookup name loggers with
    | none =>
      simp only [hl]
      have h := ih loggers acc hready
      refine ⟨h.1, ?_⟩
      rw [h.2]
      simp [List.filter_cons, hl]
    | some lg =>
      simp only [hl]
      have hlg : (name, lg) ∈ loggers := alookup_mem _ _ _ hl
      have hok := log_ok lg now msg lt err hsev (hready (name, lg) hlg)
      simp only [hok.1]
      obtain ⟨sc, hsc⟩ := Option.isSome_iff_exists.mp hok.2
      simp only [hsc]
      have hready2 : ∀ p ∈ dictInsert name (Logger.log lg now msg lt err).logger
          loggers, logReady p.2 err = true := by
        intro p hp
        rcases mem_dictInsert _ _ _ _ hp with h3 | h3
        · have h5 : logReady ((Logger.log lg now msg lt err).logger) err
              = logReady lg err := by
            simp [logReady, (log_logger_fields lg now msg lt err).2]
          rw [h3]
          simpa [h5] using hready (name, lg) hlg
        · exact hready p h3
      have h := ih (dictInsert name (Logger.log lg now msg lt err).logger
        loggers) (acc ++ [(name, sc)]) hready2
      refine ⟨h.1, ?_⟩
      rw [h.2]
      have hfil : rest.filter (fun n =>
            (alookup n (dictInsert name (Logger.log lg now msg lt err).logger
              loggers)).isSome)
          = rest.filter (fun n => (alookup n loggers).isSome) := by
        apply List.filter_congr
        intro x hx
        rw [alookup_dictInsert]
        by_cases hx2 : name = x
        · subst hx2
          simp [hl]
        · simp [hx2]
      rw [hfil]
      simp [List.filter_cons, hl, List.append_assoc]

/-- C4: when the severity is recognized and every member of the set can run
its traceback step (traceback disabled or an error with a traceback
supplied), a propagate call raises nothing and performs exactly one sink
delivery per requested name that is currently a member, skipping
non-members silently, in exactly the order the caller listed the names. -/
theorem C4_propagate (s : LoggerSet) (now : PyTime) (args : List Str)
    (msg lt : Str) (err : Option PyError) (hsev : lt ∈ LOG_TYPES)
    (hready : ∀ p ∈ s.loggers, logReady p.2 err = true) :
    (s.propagate now args msg lt err).exc = none
    ∧ ((s.propagate now args msg lt err).deliveries).map Prod.fst
        = args.filter (fun n => (s.get n).isSome) := by
  have h := propagateGo_ok now msg lt err hsev args s.loggers [] hready
  simp only [LoggerSet.propagate, LoggerSet.get]
  exact ⟨h.1, by simpa using h.2⟩

/-- C4 witness: a concrete two-member set receiving a request for a member,
an unknown name and another member delivers exactly to the two members, in
the order requested. -/
theorem C4_witness :
    (s0.propagate nowW [ str "a", str "z", str "b"] ( str "m") ( str "info")
        none).exc = none
    ∧ ((s0.propagate nowW [ str "a", str "z", str "b"] ( str "m")
        ( str "info") none).deliveries).map Prod.fst = [ str "a", str "b"] := by
  have h := C4_propagate s0 nowW [ str "a", str "z", str "b"] ( str "m")
    ( str "info") none (by decide) (by decide)
  exact ⟨h.1, h.2.trans (by decide)⟩

theorem keysMatch_dictInsert (k : Str) (v : Logger) (l : List (Str × Logger))
    (hm : keysMatch l) (hv : v.name = k) : keysMatch (dictInsert k v l) := by
  intro p hp
  rcases mem_dictInsert _ _ _ _ hp with h | h
  · rw [h]
    exact hv
  · exact hm p h

theorem keysMatch_dictErase (k : Str) (l : List (Str × Logger))
    (hm : keysMatch l) : keysMatch (dictErase k l) := by
  intro p hp
  exact hm p (mem_dictErase _ _ _ hp)

theorem keysMatch_init (names : List Str) (dir : Str) (printed tb : Bool)
    (now : Nat) :
    keysMatch (LoggerSet.init names dir printed tb now).loggers := by
  suffices h : ∀ acc, keysMatch acc →
      keysMatch (names.foldl (fun acc2 n =>
        dictInsert n (Logger.init n dir printed tb now) acc2) acc) by
    exact h [] (by intro p hp; cases hp)
  induction names with
  | nil =>
    intro acc hacc
    simpa [List.foldl] using hacc
  | cons n rest ih =>
    intro acc hacc
    simp only [List.foldl]
    exact ih _ (keysMatch_dictInsert _ _ _ hacc rfl)

theorem keysMatch_propagateGo (now : PyTime) (msg lt : Str)
    (err : Option PyError) :
    ∀ (args : List Str) (loggers : List (Str × Logger))
      (acc : List (Str × SinkCall)),
      keysMatch loggers →
      keysMatch (propagateGo loggers now args msg lt err acc).1 := by
  intro args
  induction args with
  | nil =>
    intro loggers acc h
    simp only [propagateGo]
    exact h
  | cons name rest ih =>
    intro loggers acc h
    simp only [propagateGo]
    cases hl : alookup name loggers with
    | none =>
      simp only [hl]
      exact ih loggers acc h
    | some lg =>
      simp only [hl]
      have hname : lg.name = name := h (name, lg) (alookup_mem _ _ _ hl)
      have hins : keysMatch (dictInsert name
          (Logger.log lg now msg lt err).logger loggers) :=
        keysMatch_dictInsert _ _ _ h
          (by rw [(log_logger_fields lg now msg lt err).1, hname])
      cases hexc : (Logger.log lg now msg lt err).exc with
      | some e =>
        simp only [hexc]
        exact hins
      | none =>
        simp only [hexc]
        exact ih _ _ hins

theorem reachable_keysMatch (s : LoggerSet) (h : ReachableSet s) :
    keysMatch s.loggers := by
  induction h with
  | init names dir printed tb now => exact keysMatch_init names dir printed tb now
  | refreshStep s s2 name now hs heq ih =>
    simp only [LoggerSet.refresh] at heq
    cases hl : alookup name s.loggers with
    | none =>
      rw [hl] at heq
      cases heq
    | some old =>
      rw [hl] at heq
      injection heq with h3
      subst h3
      have hname : old.name = name := ih (name, old) (alookup_mem _ _ _ hl)
      exact keysMatch_dictInsert _ _ _ ih (by simp [Logger.init, hname])
  | removeStep s name hs ih =>
    exact keysMatch_dictErase name s.loggers ih
  | propagateStep s now args msg lt err hs ih =>
    exact keysMatch_propagateGo now msg lt err args s.loggers [] ih
  | propagateAllStep s now msg lt err hs ih =>
    exact keysMatch_propagateGo now msg lt err (s.loggers.map Prod.fst)
      s.loggers [] ih

/-- C6: in every LoggerSet state reachable from construction by refresh,
remove, propagate and propagate-all steps, every key of the mapping stores
a Logger whose own name field equals that key. -/
theorem C6_names_invariant (s : LoggerSet) (h : ReachableSet s) (k : Str)
    (lg : Logger) (hk : alookup k s.loggers = some lg) : lg.name = k :=
  reachable_keysMatch s h (k, lg) (alookup_mem _ _ _ hk)

/-- C6 witness: the invariant applied to a freshly constructed concrete
set at key a. -/
theorem C6_witness : lgA0.name = str "a" :=
  C6_names_invariant
    (LoggerSet.init [ str "a", str "b"] ( str "logs") false false 0)
    (ReachableSet.init [ str "a", str "b"] ( str "logs") false false 0)
    ( str "a") lgA0 (by decide)
